import Mathlib

/-!
Verification of the ICP stable-memory storage subsystem of `eliza_icp_backend`
(`src/icp/src/eliza_icp_backend/src/storage.rs`, with shared types from
`types.rs`): the Collection Store (`IcpMemoryStorage`), the Vector Index
(`IcpVectorStorage`), and the Database Adapter (`IcpDatabaseAdapter`).

Embedding conventions, stated once here:

* JSON documents (`serde_json::Value`) are modelled by the inductive `Val`.
  JSON numbers are modelled as exact rationals; every finite `f32`/`f64` is a
  rational, and `serde_json` number semantics (`as_i64` succeeds exactly on
  integral numbers, `as_f64` on every number) are reproduced on `ℚ`.
* `f32` arithmetic inside cosine similarity is idealized as exact rational
  arithmetic; the square root, under which `ℚ` is not closed, is passed as an
  explicit function parameter `sqrt` (instantiating `sqrt` with the real
  square root gives the ideal `dot(a,b) / (‖a‖ * ‖b‖)`).
* The stable `StableBTreeMap`s (`DATA`, `VECTORS`) and the `serde_json`
  object maps are modelled as association lists with replace-in-place upsert;
  no claim observes the key-iteration order of the maps, only their contents.
  The composite key `"<collection>:<id>"` of `DATA` is modelled as the pair
  `(collection, id)`; the fixed collection constants contain no `:`, so the
  composite keys are in bijection with the pairs.
* The thread-local globals (`DATA`, `VECTORS`, `VECTOR_DIM` and the scratch
  in-memory `CACHE` map that only `IcpMemoryStorage::close` touches) form the
  explicit state `Store`, passed and returned by each operation.
* The ambient clock `now_millis()` and the uuid generator `generate_uuid()`
  are passed as explicit arguments (`now`, `fresh`).
* Rust panics (the `unwrap()` calls on `as_object_mut`) are modelled by
  returning `none`; fallible operations return `Except StorageError`.
* Rust's `sort_by`, a stable sort, is modelled by `List.insertionSort`, which
  is also stable, so the two agree on every input.
-/

/-- `serde_json::Value`, with numbers as exact rationals. -/
inductive Val where
  | null : Val
  | bool (b : Bool) : Val
  | num (q : ℚ) : Val
  | str (s : String) : Val
  | arr (elems : List Val) : Val
  | obj (fields : List (String × Val)) : Val

namespace Val

/-- `Value::get(key)` on objects: first field with the given name. -/
def get (v : Val) (k : String) : Option Val :=
  match v with
  | .obj fs => fs.lookup k
  | _ => none

/-- `Value::as_str`. -/
def asStr (v : Val) : Option String :=
  match v with
  | .str s => some s
  | _ => none

/-- `Value::as_i64`: succeeds exactly on integral numbers. -/
def asInt (v : Val) : Option ℤ :=
  match v with
  | .num q => if q.den = 1 then some q.num else none
  | _ => none

/-- `Value::as_f64`: every JSON number is representable. -/
def asNum (v : Val) : Option ℚ :=
  match v with
  | .num q => some q
  | _ => none

/-- `Value::as_array`. -/
def asArr (v : Val) : Option (List Val) :=
  match v with
  | .arr xs => some xs
  | _ => none

/-- `v == Some(&json!(true))` on an optional field. -/
def isTrueLit (v : Option Val) : Bool :=
  match v with
  | some (.bool true) => true
  | _ => false

/-- Whether the value is a JSON object (`as_object` succeeds). -/
def isObj (v : Val) : Bool :=
  match v with
  | .obj _ => true
  | _ => false

end Val

/-- Map upsert on an association list: replace the first binding of the key
in place if present, otherwise append the new binding (the model of both
`BTreeMap::insert` and `serde_json::Map::insert`). -/
def upsert {κ β : Type} [BEq κ] : List (κ × β) → κ → β → List (κ × β)
  | [], k, v => [(k, v)]
  | (k0, v0) :: rest, k, v =>
      if k0 == k then (k0, v) :: rest else (k0, v0) :: upsert rest k v

/-- `StorageError` from `types.rs`. -/
inductive StorageError where
  | notReady : StorageError
  | notFound (id : String) : StorageError
  | dimensionMismatch (expected actual : Nat) : StorageError
  | serialization (msg : String) : StorageError
  | other (msg : String) : StorageError
deriving DecidableEq

/-- `VectorSearchResult` from `types.rs` (scores as exact rationals). -/
structure VectorSearchResult where
  id : String
  distance : ℚ
  similarity : ℚ
deriving DecidableEq

-- The collection name constants from `types.rs` (`COLLECTIONS`).
namespace COLLECTIONS

def AGENTS : String := "agents"

def ENTITIES : String := "entities"

def MEMORIES : String := "memories"

def ROOMS : String := "rooms"

def PARTICIPANTS : String := "participants"

def CACHE : String := "cache"

end COLLECTIONS

/-- The whole thread-local storage state of `storage.rs`: the stable `DATA`
map (keyed by collection and id), the stable `VECTORS` map, the configured
`VECTOR_DIM`, and the scratch in-memory `CACHE` map. -/
structure Store where
  data : List ((String × String) × Val)
  vectors : List (String × List ℚ)
  dim : Nat
  memCache : List (String × Val)

namespace IcpMemoryStorage

/-- `IcpMemoryStorage::get`. -/
def get (collection id : String) (d : List ((String × String) × Val)) :
    Option Val :=
  d.lookup (collection, id)

/-- The documents of one collection, in storage order (the scan that
`get_all` performs; `get_where` and `delete_where` run the same scan). -/
def docsOf (collection : String) (d : List ((String × String) × Val)) :
    List Val :=
  (d.filter (fun kv => kv.1.1 == collection)).map (·.2)

/-- `IcpMemoryStorage::get_where`: the single scan filtering on collection
and predicate at once, written as predicate filtering of the collection
scan. -/
def get_where (collection : String) (p : Val → Bool)
    (d : List ((String × String) × Val)) : List Val :=
  (docsOf collection d).filter p

/-- `IcpMemoryStorage::set`: upsert. -/
def set (collection id : String) (v : Val)
    (d : List ((String × String) × Val)) : List ((String × String) × Val) :=
  upsert d (collection, id) v

/-- `IcpMemoryStorage::delete`: removes the binding, reports whether one
existed. -/
def delete (collection id : String) (d : List ((String × String) × Val)) :
    List ((String × String) × Val) × Bool :=
  (d.filter (fun kv => !(kv.1 == (collection, id))),
   d.any (fun kv => kv.1 == (collection, id)))

/-- `IcpMemoryStorage::delete_where`: collects the keys of one collection
matching the predicate, then removes them (equivalently: one filter). -/
def delete_where (collection : String) (p : Val → Bool)
    (d : List ((String × String) × Val)) : List ((String × String) × Val) :=
  d.filter (fun kv => !(kv.1.1 == collection && p kv.2))

/-- `IcpMemoryStorage::close`: clears only the scratch in-memory cache map;
stable data persists. -/
def close (st : Store) : Store :=
  { st with memCache := [] }

end IcpMemoryStorage

/-- `cosine_similarity` from `storage.rs`: length-mismatched vectors score
`0`, zero magnitude scores `0`, otherwise `dot / (sqrt normA * sqrt normB)`.
The accumulation loop is a sum (exact addition is order-insensitive). -/
def cosine_similarity (sqrt : ℚ → ℚ) (a b : List ℚ) : ℚ :=
  if a.length ≠ b.length then 0
  else
    let dot := (List.zipWith (fun x y => x * y) a b).sum
    let normA := (a.map (fun x => x * x)).sum
    let normB := (b.map (fun x => x * x)).sum
    let magnitude := sqrt normA * sqrt normB
    if magnitude = 0 then 0 else dot / magnitude

/-- Descending-similarity order used by `results.sort_by` in
`IcpVectorStorage::search`. -/
def vsrGe (a b : VectorSearchResult) : Prop :=
  b.similarity ≤ a.similarity

instance : DecidableRel vsrGe :=
  fun a b => inferInstanceAs (Decidable (b.similarity ≤ a.similarity))

instance : IsTotal VectorSearchResult vsrGe :=
  ⟨fun a b => le_total b.similarity a.similarity⟩

instance : IsTrans VectorSearchResult vsrGe :=
  ⟨fun _ _ _ hab hbc => le_trans hbc hab⟩

namespace IcpVectorStorage

/-- `IcpVectorStorage::add`: dimension check, then upsert. On the error
path nothing is inserted, so the error result carries no new state. -/
def add (dim : Nat) (vecs : List (String × List ℚ)) (id : String)
    (vector : List ℚ) : Except StorageError (List (String × List ℚ)) :=
  if vector.length ≠ dim then
    .error (.dimensionMismatch dim vector.length)
  else
    .ok (upsert vecs id vector)

/-- `IcpVectorStorage::remove`. -/
def remove (vecs : List (String × List ℚ)) (id : String) :
    List (String × List ℚ) :=
  vecs.filter (fun kv => !(kv.1 == id))

/-- `IcpVectorStorage::search`: dimension check; cosine similarity against
every stored vector; keep scores `>= threshold` with `distance =
1 - similarity`; stable sort by descending similarity; truncate to `k`. -/
def search (sqrt : ℚ → ℚ) (dim : Nat) (vecs : List (String × List ℚ))
    (query : List ℚ) (k : Nat) (threshold : ℚ) :
    Except StorageError (List VectorSearchResult) :=
  if query.length ≠ dim then
    .error (.dimensionMismatch dim query.length)
  else
    let results := vecs.filterMap (fun kv =>
      let similarity := cosine_similarity sqrt query kv.2
      if threshold ≤ similarity then
        some ⟨kv.1, 1 - similarity, similarity⟩
      else
        none)
    .ok ((List.insertionSort vsrGe results).take k)

/-- `IcpVectorStorage::clear`. -/
def clear (_vecs : List (String × List ℚ)) : List (String × List ℚ) :=
  []

end IcpVectorStorage

/-- Sort key of `get_memories`: `createdAt` as `i64`, defaulting to `0`. -/
def createdKey (m : Val) : ℤ :=
  ((m.get "createdAt").bind Val.asInt).getD 0

/-- Descending-`createdAt` order used by `memories.sort_by` in
`get_memories`. -/
def memGe (a b : Val) : Prop :=
  createdKey b ≤ createdKey a

instance : DecidableRel memGe :=
  fun a b => inferInstanceAs (Decidable (createdKey b ≤ createdKey a))

instance : IsTotal Val memGe :=
  ⟨fun a b => le_total (createdKey b) (createdKey a)⟩

instance : IsTrans Val memGe :=
  ⟨fun _ _ _ hab hbc => le_trans hbc hab⟩

namespace IcpDatabaseAdapter

/-- `IcpDatabaseAdapter::close`: clears the Vector Index, then closes the
Collection Store (which clears only the scratch cache map). -/
def close (st : Store) : Store :=
  IcpMemoryStorage.close { st with vectors := IcpVectorStorage.clear st.vectors }

/-- `IcpDatabaseAdapter::get_agent`. -/
def get_agent (agentId : String) (st : Store) : Option Val :=
  IcpMemoryStorage.get COLLECTIONS.AGENTS agentId st.data

/-- `IcpDatabaseAdapter::update_agent`: shallow merge of the patch's
top-level fields over the stored document; `false` when the agent does not
exist. When either side is not an object the merge loop is skipped and the
existing document is re-stored unchanged. -/
def update_agent (st : Store) (agentId : String) (agent : Val) :
    Store × Bool :=
  match get_agent agentId st with
  | some existing =>
      let merged :=
        match existing, agent with
        | .obj ef, .obj pf => Val.obj (pf.foldl (fun acc kv => upsert acc kv.1 kv.2) ef)
        | _, _ => existing
      ({ st with data := IcpMemoryStorage.set COLLECTIONS.AGENTS agentId merged st.data }, true)
  | none => (st, false)

/-- The filter predicate of `get_memories`: equality filters on
`entityId`/`agentId`/`roomId`/`worldId` where supplied, and on
`metadata.type == tableName` when the document has a `metadata` field. -/
def memFilter (entityId agentId roomId worldId : Option String)
    (tableName : String) (m : Val) : Bool :=
  (entityId.all fun e => (m.get "entityId").bind Val.asStr == some e) &&
  (agentId.all fun a => (m.get "agentId").bind Val.asStr == some a) &&
  (roomId.all fun r => (m.get "roomId").bind Val.asStr == some r) &&
  (worldId.all fun w => (m.get "worldId").bind Val.asStr == some w) &&
  (match m.get "metadata" with
   | some md => (md.get "type").bind Val.asStr == some tableName
   | none => true)

/-- The tail of `get_memories`: `skip offset` (when supplied) and then
`take count` (when supplied) — offset before limiting. -/
def sliceMemories (count offset : Option Nat) (sorted : List Val) : List Val :=
  let afterOffset := match offset with
    | some o => sorted.drop o
    | none => sorted
  match count with
  | some c => afterOffset.take c
  | none => afterOffset

/-- `IcpDatabaseAdapter::get_memories`: scan with `memFilter`, stable sort
by `createdAt` descending, then `skip offset` and `take count`. The
`uniq` argument is accepted and ignored, as in the source. -/
def get_memories (st : Store) (entityId agentId roomId worldId : Option String)
    (tableName : String) (count offset : Option Nat) (_uniq : Option Bool) :
    List Val :=
  let ms := IcpMemoryStorage.get_where COLLECTIONS.MEMORIES
    (memFilter entityId agentId roomId worldId tableName) st.data
  sliceMemories count offset (List.insertionSort memGe ms)

/-- `IcpDatabaseAdapter::get_memory_by_id`. -/
def get_memory_by_id (id : String) (st : Store) : Option Val :=
  IcpMemoryStorage.get COLLECTIONS.MEMORIES id st.data

/-- The per-candidate filter of `search_memories`: `metadata.type` when
`metadata` is present, then `roomId`/`worldId`/`entityId` where supplied;
the `unique` filter applies only when `Some(true)` is supplied. -/
def searchKeep (tableName : String) (roomId worldId entityId : Option String)
    (uniq : Option Bool) (m : Val) : Bool :=
  (match m.get "metadata" with
   | some md => (md.get "type").bind Val.asStr == some tableName
   | none => true) &&
  (roomId.all fun r => (m.get "roomId").bind Val.asStr == some r) &&
  (worldId.all fun w => (m.get "worldId").bind Val.asStr == some w) &&
  (entityId.all fun e => (m.get "entityId").bind Val.asStr == some e) &&
  (match uniq with
   | some true => Val.isTrueLit (m.get "unique")
   | _ => true)

/-- The candidate loop of `search_memories`: fetch each candidate id,
skip misses and filtered-out documents, attach the similarity score onto
each kept document (`as_object_mut().unwrap()` panics — `none` — on a
non-object document). -/
def searchLoop (st : Store) (tableName : String)
    (roomId worldId entityId : Option String) (uniq : Option Bool) :
    List VectorSearchResult → Option (List Val)
  | [] => some []
  | r :: rs =>
      match get_memory_by_id r.id st with
      | none => searchLoop st tableName roomId worldId entityId uniq rs
      | some m =>
          if searchKeep tableName roomId worldId entityId uniq m then
            match m with
            | .obj fs =>
                (searchLoop st tableName roomId worldId entityId uniq rs).map
                  (fun tail => Val.obj (upsert fs "similarity" (Val.num r.similarity)) :: tail)
            | _ => none
          else
            searchLoop st tableName roomId worldId entityId uniq rs

/-- `IcpDatabaseAdapter::search_memories`: default threshold `0.5` and
count `10`; query the Vector Index for `2*count` candidates; run the
candidate loop; truncate to `count`. -/
def search_memories (sqrt : ℚ → ℚ) (st : Store) (tableName : String)
    (embedding : List ℚ) (matchThreshold : Option ℚ) (count : Option Nat)
    (roomId worldId entityId : Option String) (uniq : Option Bool) :
    Option (Except StorageError (List Val)) :=
  let threshold := matchThreshold.getD (1/2)
  let k := count.getD 10
  match IcpVectorStorage.search sqrt st.dim st.vectors embedding (k * 2) threshold with
  | .error e => some (.error e)
  | .ok results =>
      (searchLoop st tableName roomId worldId entityId uniq results).map
        (fun memories => .ok (memories.take k))

/-- `IcpDatabaseAdapter::create_memory`: take the document's id or a fresh
one; stamp `id`, `agentId`, `unique`, `createdAt`; tag `metadata.type` with
the table name; store the document; then, if the document's top-level
`embedding` is an array whose numeric elements form a non-empty vector,
add that vector to the Vector Index under the same id (a dimension
mismatch aborts with the document already stored). `none` models the
`unwrap()` panics on a non-object document or non-object `metadata`. -/
def create_memory (agentId : String) (now : ℤ) (fresh : String)
    (memory : Val) (tableName : String) (uniq : Bool) (st : Store) :
    Option (Store × Except StorageError String) :=
  match memory with
  | .obj mf =>
      let id := ((memory.get "id").bind Val.asStr).getD fresh
      let f1 := upsert mf "id" (Val.str id)
      let f2 := upsert f1 "agentId" ((memory.get "agentId").getD (Val.str agentId))
      let f3 := upsert f2 "unique" (Val.bool (uniq || Val.isTrueLit (memory.get "unique")))
      let f4 := upsert f3 "createdAt" ((memory.get "createdAt").getD (Val.num (now : ℚ)))
      match (memory.get "metadata").getD (Val.obj []) with
      | .obj mdf =>
          let md := Val.obj (upsert mdf "type" (Val.str tableName))
          let stored := Val.obj (upsert f4 "metadata" md)
          let d1 := IcpMemoryStorage.set COLLECTIONS.MEMORIES id stored st.data
          match (memory.get "embedding").bind Val.asArr with
          | some xs =>
              let es := xs.filterMap Val.asNum
              if es.isEmpty then some ({ st with data := d1 }, .ok id)
              else
                match IcpVectorStorage.add st.dim st.vectors id es with
                | .ok v1 => some ({ st with data := d1, vectors := v1 }, .ok id)
                | .error e => some ({ st with data := d1 }, .error e)
          | none => some ({ st with data := d1 }, .ok id)
      | _ => none
  | _ => none

/-- `IcpDatabaseAdapter::delete_memory`: document and vector record. -/
def delete_memory (st : Store) (memoryId : String) : Store :=
  { st with
    data := (IcpMemoryStorage.delete COLLECTIONS.MEMORIES memoryId st.data).1,
    vectors := IcpVectorStorage.remove st.vectors memoryId }

/-- The roomId-match predicate of `delete_room`'s two cascades. -/
def roomRefs (roomId : String) (doc : Val) : Bool :=
  (doc.get "roomId").bind Val.asStr == some roomId

/-- `IcpDatabaseAdapter::delete_room`: delete the room document, then every
participant document and every memory document whose `roomId` matches.
Only the Collection Store is touched. -/
def delete_room (st : Store) (roomId : String) : Store :=
  let d1 := (IcpMemoryStorage.delete COLLECTIONS.ROOMS roomId st.data).1
  let d2 := IcpMemoryStorage.delete_where COLLECTIONS.PARTICIPANTS (roomRefs roomId) d1
  let d3 := IcpMemoryStorage.delete_where COLLECTIONS.MEMORIES (roomRefs roomId) d2
  { st with data := d3 }

/-- `IcpDatabaseAdapter::get_cache`: a stored record whose `expiresAt` is
integral and strictly in the past is deleted and reported absent;
otherwise the record's `value` field is returned. -/
def get_cache (st : Store) (key : String) (now : ℤ) : Store × Option Val :=
  match IcpMemoryStorage.get COLLECTIONS.CACHE key st.data with
  | some cached =>
      match (cached.get "expiresAt").bind Val.asInt with
      | some expiresAt =>
          if now > expiresAt then
            ({ st with data := (IcpMemoryStorage.delete COLLECTIONS.CACHE key st.data).1 }, none)
          else
            (st, cached.get "value")
      | none => (st, cached.get "value")
  | none => (st, none)

/-- `IcpDatabaseAdapter::set_cache`: always wraps the value in a
`{"value": …}` envelope; no `expiresAt` is ever written. -/
def set_cache (st : Store) (key : String) (value : Val) : Store × Bool :=
  let d1 := IcpMemoryStorage.set COLLECTIONS.CACHE key (Val.obj [("value", value)]) st.data
  ({ st with data := d1 }, true)

end IcpDatabaseAdapter

/-- Setting a top-level field of a document (total version used in the
specification-side search pipeline; the source unwraps the object). -/
def Val.setField (m : Val) (k : String) (v : Val) : Val :=
  match m with
  | .obj fs => .obj (upsert fs k v)
  | x => x

/-- Specification-side description of `searchMemories`, §4.3 of the spec:
query the Vector Index for `2*count` candidates above the threshold, fetch
each candidate by id, keep those satisfying `keep`, attach the similarity
score onto each kept document, truncate to `count`. Parameterized by the
candidate filter `keep` so the claimed filter and the amended filter can be
compared against the code. -/
def searchPipeline (sqrt : ℚ → ℚ) (st : Store) (embedding : List ℚ)
    (count : Nat) (threshold : ℚ) (keep : Val → Bool) :
    Except StorageError (List Val) :=
  (IcpVectorStorage.search sqrt st.dim st.vectors embedding (count * 2) threshold).map
    (fun results =>
      (results.filterMap (fun r =>
        (IcpDatabaseAdapter.get_memory_by_id r.id st).bind (fun m =>
          if keep m then some (m.setField "similarity" (Val.num r.similarity))
          else none))).take count)

/-- The candidate filter exactly as claim C4 words it: `metadata.type`,
`roomId`, `worldId`, `entityId`, and the `unique` flag must each match the
supplied filter — including `unique = false`. -/
def claimSearchKeep (tableName : String)
    (roomId worldId entityId : Option String) (uniq : Option Bool)
    (m : Val) : Bool :=
  (((m.get "metadata").bind (fun md => md.get "type")).bind Val.asStr == some tableName) &&
  (roomId.all fun r => (m.get "roomId").bind Val.asStr == some r) &&
  (worldId.all fun w => (m.get "worldId").bind Val.asStr == some w) &&
  (entityId.all fun e => (m.get "entityId").bind Val.asStr == some e) &&
  (uniq.all fun u => Val.isTrueLit (m.get "unique") == u)

/-- The memory filter exactly as claim C5 words it: equality filters on
`entityId`/`agentId`/`roomId`/`worldId` where supplied, and
`metadata.type == tableName` (unconditionally). -/
def claimMemFilter (entityId agentId roomId worldId : Option String)
    (tableName : String) (m : Val) : Bool :=
  (entityId.all fun e => (m.get "entityId").bind Val.asStr == some e) &&
  (agentId.all fun a => (m.get "agentId").bind Val.asStr == some a) &&
  (roomId.all fun r => (m.get "roomId").bind Val.asStr == some r) &&
  (worldId.all fun w => (m.get "worldId").bind Val.asStr == some w) &&
  (((m.get "metadata").bind (fun md => md.get "type")).bind Val.asStr == some tableName)

-- ======== Concrete stores and documents for witnesses/counterexamples ====

/-- An empty store configured for dimension 3 (the spec's scenarios use
3-dimensional embeddings). -/
def stDim3 : Store := ⟨[], [], 3, []⟩

/-- A document whose embedding sits under `content.embedding`, as in the
spec's create-and-retrieve scenario, with no top-level `embedding`. -/
def contentEmbDoc : Val :=
  Val.obj [("id", Val.str "m1"),
           ("content", Val.obj [("text", Val.str "hi"),
                                ("embedding", Val.arr [Val.num 0.1, Val.num 0.2, Val.num 0.3])])]

/-- The same document with the embedding at top level. -/
def topEmbDoc : Val :=
  Val.obj [("id", Val.str "m1"),
           ("embedding", Val.arr [Val.num 0.1, Val.num 0.2, Val.num 0.3])]

/-- The store produced by `create_memory "agent" 1000 "u1" topEmbDoc
"messages" false stDim3`. -/
def topEmbStoreAfter : Store :=
  ⟨[(("memories", "m1"),
     Val.obj [("id", Val.str "m1"),
              ("embedding", Val.arr [Val.num 0.1, Val.num 0.2, Val.num 0.3]),
              ("agentId", Val.str "agent"),
              ("unique", Val.bool false),
              ("createdAt", Val.num ((1000 : ℤ) : ℚ)),
              ("metadata", Val.obj [("type", Val.str "messages")])])],
   [("m1", [0.1, 0.2, 0.3])], 3, []⟩

/-- An empty store at the default dimension 384. -/
def stDim384 : Store := ⟨[], [], 384, []⟩

/-- A cache value carrying an `expiresAt` far in the past. -/
def pastVal : Val := Val.obj [("expiresAt", Val.num 5)]

/-- A store holding a cache record whose own `expiresAt` (5) is in the
past, as written directly through the Collection Store. -/
def expiredCacheStore : Store :=
  ⟨[(("cache", "k"), Val.obj [("expiresAt", Val.num 5), ("value", Val.str "x")])],
   [], 384, []⟩

/-- A store with a document, a vector record, and scratch cache content. -/
def closeProbeStore : Store :=
  ⟨[(("agents", "a"), Val.obj [("id", Val.str "a")])],
   [("a", [1, 2, 3])], 3, [("scratch", Val.null)]⟩

/-- A memory document marked `unique: true` in table `messages`. -/
def searchMem : Val :=
  Val.obj [("id", Val.str "m1"),
           ("metadata", Val.obj [("type", Val.str "messages")]),
           ("unique", Val.bool true)]

/-- A one-memory, one-vector store at dimension 1, whose single stored
vector `[1]` has cosine similarity `1` with the query `[1]`. -/
def searchStore : Store :=
  ⟨[(("memories", "m1"), searchMem)], [("m1", [1])], 1, []⟩

/-- `searchMem` with the similarity score `1` attached. -/
def searchMemSim : Val :=
  Val.obj [("id", Val.str "m1"),
           ("metadata", Val.obj [("type", Val.str "messages")]),
           ("unique", Val.bool true),
           ("similarity", Val.num 1)]

/-- Three memories in room `r1`, inserted with `createdAt` 100, 300, 200. -/
def memA : Val :=
  Val.obj [("id", Val.str "a"), ("roomId", Val.str "r1"),
           ("createdAt", Val.num 100),
           ("metadata", Val.obj [("type", Val.str "messages")])]

/-- See `memA`. -/
def memB : Val :=
  Val.obj [("id", Val.str "b"), ("roomId", Val.str "r1"),
           ("createdAt", Val.num 300),
           ("metadata", Val.obj [("type", Val.str "messages")])]

/-- See `memA`. -/
def memC : Val :=
  Val.obj [("id", Val.str "c"), ("roomId", Val.str "r1"),
           ("createdAt", Val.num 200),
           ("metadata", Val.obj [("type", Val.str "messages")])]

/-- The store holding `memA`, `memB`, `memC` in insertion order. -/
def orderStore : Store :=
  ⟨[(("memories", "a"), memA), (("memories", "b"), memB), (("memories", "c"), memC)],
   [], 384, []⟩

/-- A stored agent document with three fields. -/
def agentDoc : Val :=
  Val.obj [("id", Val.str "a1"), ("name", Val.str "Eliza"), ("bio", Val.str "b")]

/-- A store holding `agentDoc` under id `a1`. -/
def agentStore : Store := ⟨[(("agents", "a1"), agentDoc)], [], 384, []⟩

/-- A store with a room `r1`, a participant in `r1`, and the memory `memA`
(which lives in room `r1`). -/
def roomStore : Store :=
  ⟨[(("rooms", "r1"), Val.obj [("id", Val.str "r1")]),
    (("participants", "p1"), Val.obj [("id", Val.str "p1"), ("roomId", Val.str "r1")]),
    (("memories", "a"), memA)],
   [], 384, []⟩

-- ======== Association-list lemmas ========================================

section AssocLemmas

variable {κ β : Type} [BEq κ] [LawfulBEq κ]

theorem lookup_upsert (l : List (κ × β)) (k : κ) (v : β) (k0 : κ) :
    (upsert l k v).lookup k0 = if k0 == k then some v else l.lookup k0 := by
  induction l with
  | nil =>
      cases h : k0 == k <;> simp [upsert, List.lookup, h]
  | cons kv rest ih =>
      obtain ⟨k1, v1⟩ := kv
      cases h1 : k1 == k with
      | true =>
          obtain rfl : k1 = k := eq_of_beq h1
          cases h0 : k0 == k1 <;> simp [upsert, List.lookup, h0]
      | false =>
          cases h0 : k0 == k1 with
          | true =>
              obtain rfl : k0 = k1 := eq_of_beq h0
              simp [upsert, List.lookup, h1, beq_self_eq_true]
          | false =>
              simp [upsert, List.lookup, h1, h0, ih]

theorem lookup_upsert_self (l : List (κ × β)) (k : κ) (v : β) :
    (upsert l k v).lookup k = some v := by
  simp [lookup_upsert]

theorem lookup_eq_none_iff (l : List (κ × β)) (k : κ) :
    l.lookup k = none ↔ ∀ kv ∈ l, kv.1 ≠ k := by
  induction l with
  | nil => simp
  | cons kv rest ih =>
      obtain ⟨k1, v1⟩ := kv
      cases h : k == k1 with
      | true =>
          have hk : k1 = k := (eq_of_beq h).symm
          simp only [List.lookup, h]
          constructor
          · intro hc
            exact absurd hc (by simp)
          · intro hall
            exact absurd hk (hall (k1, v1) (List.mem_cons_self _ _))
      | false =>
          have hne : k1 ≠ k := fun hh => by subst hh; simp at h
          simp only [List.lookup, h]
          rw [ih]
          constructor
          · intro hall kv hm
            rcases List.mem_cons.mp hm with rfl | hm2
            · exact hne
            · exact hall kv hm2
          · intro hall kv hm
            exact hall kv (List.mem_cons_of_mem _ hm)

theorem lookup_filter_of_none (l : List (κ × β)) (f : κ × β → Bool) (k : κ)
    (h : l.lookup k = none) : (l.filter f).lookup k = none := by
  rw [lookup_eq_none_iff] at h ⊢
  exact fun kv hm => h kv (List.mem_of_mem_filter hm)

theorem lookup_some_mem (l : List (κ × β)) (k : κ) (v : β)
    (h : l.lookup k = some v) : (k, v) ∈ l := by
  induction l with
  | nil => simp [List.lookup] at h
  | cons kv rest ih =>
      obtain ⟨k1, v1⟩ := kv
      cases hk : k == k1 with
      | true =>
          simp only [List.lookup, hk] at h
          obtain rfl := Option.some.inj h
          exact (eq_of_beq hk) ▸ List.mem_cons_self _ _
      | false =>
          simp only [List.lookup, hk] at h
          exact List.mem_cons_of_mem _ (ih h)

theorem foldl_upsert_lookup (pf : List (κ × β)) (ef : List (κ × β)) (k : κ)
    (hnd : (pf.map Prod.fst).Nodup) :
    (pf.foldl (fun acc kv => upsert acc kv.1 kv.2) ef).lookup k =
      (pf.lookup k).or (ef.lookup k) := by
  induction pf generalizing ef with
  | nil => simp [List.lookup]
  | cons kv rest ih =>
      obtain ⟨k1, v1⟩ := kv
      simp only [List.map_cons, List.nodup_cons] at hnd
      obtain ⟨hk1, hrest⟩ := hnd
      simp only [List.foldl_cons]
      rw [ih (upsert ef k1 v1) hrest]
      cases h : k == k1 with
      | true =>
          obtain rfl : k = k1 := eq_of_beq h
          have hr : rest.lookup k = none := by
            rw [lookup_eq_none_iff]
            intro kv hm hk
            exact hk1 (hk ▸ List.mem_map_of_mem Prod.fst hm)
          simp [List.lookup, hr, lookup_upsert]
      | false =>
          simp [List.lookup, h, lookup_upsert]

end AssocLemmas

-- ======== Collection-store lemmas ========================================

theorem docsOf_cons (c : String) (kv : (String × String) × Val)
    (d : List ((String × String) × Val)) :
    IcpMemoryStorage.docsOf c (kv :: d) =
      if kv.1.1 == c then kv.2 :: IcpMemoryStorage.docsOf c d
      else IcpMemoryStorage.docsOf c d := by
  cases h : kv.1.1 == c <;> simp [IcpMemoryStorage.docsOf, List.filter_cons, h]

theorem docsOf_filter (c : String) (f : (String × String) × Val → Bool)
    (g : Val → Bool) (d : List ((String × String) × Val))
    (h : ∀ kv : (String × String) × Val, kv.1.1 = c → f kv = g kv.2) :
    IcpMemoryStorage.docsOf c (d.filter f) =
      (IcpMemoryStorage.docsOf c d).filter g := by
  induction d with
  | nil => rfl
  | cons kv d ih =>
      cases hc : kv.1.1 == c with
      | true =>
          have hfg : f kv = g kv.2 := h kv (eq_of_beq hc)
          cases hf : f kv with
          | true =>
              have hg : g kv.2 = true := hfg ▸ hf
              simp [List.filter_cons, docsOf_cons, hc, hf, hg, ih]
          | false =>
              have hg : g kv.2 = false := hfg ▸ hf
              simp [List.filter_cons, docsOf_cons, hc, hf, hg, ih]
      | false =>
          cases hf : f kv with
          | true => simp [List.filter_cons, docsOf_cons, hc, hf, ih]
          | false => simp [List.filter_cons, docsOf_cons, hc, hf, ih]

theorem docsOf_delete_where_self (c : String) (p : Val → Bool)
    (d : List ((String × String) × Val)) :
    IcpMemoryStorage.docsOf c (IcpMemoryStorage.delete_where c p d) =
      (IcpMemoryStorage.docsOf c d).filter (fun m => !(p m)) := by
  apply docsOf_filter
  intro kv hkv
  rw [show (kv.1.1 == c) = true from beq_iff_eq.mpr hkv]
  simp

theorem docsOf_delete_where_ne (c c2 : String) (hcc : c ≠ c2) (p : Val → Bool)
    (d : List ((String × String) × Val)) :
    IcpMemoryStorage.docsOf c (IcpMemoryStorage.delete_where c2 p d) =
      IcpMemoryStorage.docsOf c d := by
  rw [show IcpMemoryStorage.docsOf c d =
      (IcpMemoryStorage.docsOf c d).filter (fun _ => true) by simp]
  apply docsOf_filter
  intro kv hkv
  rw [show (kv.1.1 == c2) = false from beq_eq_false_iff_ne.mpr (hkv ▸ hcc)]
  simp

theorem docsOf_delete_ne (c c2 : String) (i : String) (hcc : c ≠ c2)
    (d : List ((String × String) × Val)) :
    IcpMemoryStorage.docsOf c ((IcpMemoryStorage.delete c2 i d).1) =
      IcpMemoryStorage.docsOf c d := by
  rw [show IcpMemoryStorage.docsOf c d =
      (IcpMemoryStorage.docsOf c d).filter (fun _ => true) by simp]
  apply docsOf_filter
  intro kv hkv
  have : kv.1 ≠ (c2, i) := by
    intro hh
    exact hcc (by rw [← hkv, hh])
  rw [show (kv.1 == (c2, i)) = false from beq_eq_false_iff_ne.mpr this]
  simp

theorem mem_docsOf_of_get (c i : String) (d : List ((String × String) × Val))
    (m : Val) (h : IcpMemoryStorage.get c i d = some m) :
    m ∈ IcpMemoryStorage.docsOf c d := by
  have hmem : ((c, i), m) ∈ d := lookup_some_mem d (c, i) m h
  have : ((c, i), m) ∈ d.filter (fun kv => kv.1.1 == c) :=
    List.mem_filter.mpr ⟨hmem, by simp⟩
  exact List.mem_map_of_mem (·.2) this

theorem get_delete_self (c i : String) (d : List ((String × String) × Val)) :
    IcpMemoryStorage.get c i ((IcpMemoryStorage.delete c i d).1) = none := by
  rw [IcpMemoryStorage.get, lookup_eq_none_iff]
  intro kv hm
  have := (List.mem_filter.mp hm).2
  simp only [Bool.not_eq_true', beq_eq_false_iff_ne] at this
  exact this

-- ======== Slicing and sorting lemmas =====================================

theorem slice_sublist (cnt off : Option Nat) (l : List Val) :
    List.Sublist (IcpDatabaseAdapter.sliceMemories cnt off l) l := by
  cases cnt <;> cases off <;>
    simp only [IcpDatabaseAdapter.sliceMemories] <;>
    first
      | exact List.Sublist.refl l
      | exact List.drop_sublist _ l
      | exact List.take_sublist _ l
      | exact List.Sublist.trans (List.take_sublist _ _) (List.drop_sublist _ l)

theorem sorted_slice (cnt off : Option Nat) (l : List Val)
    (h : List.Sorted memGe l) :
    List.Sorted memGe (IcpDatabaseAdapter.sliceMemories cnt off l) :=
  List.Pairwise.sublist (slice_sublist cnt off l) h

theorem slice_nil (cnt off : Option Nat) :
    IcpDatabaseAdapter.sliceMemories cnt off [] = [] := by
  cases cnt <;> cases off <;> simp [IcpDatabaseAdapter.sliceMemories]

-- ======== Search-loop characterization ===================================

theorem searchLoop_eq (st : Store) (tableName : String)
    (roomId worldId entityId : Option String) (uniq : Option Bool)
    (results : List VectorSearchResult)
    (hobj : ∀ m ∈ IcpMemoryStorage.docsOf COLLECTIONS.MEMORIES st.data, Val.isObj m) :
    IcpDatabaseAdapter.searchLoop st tableName roomId worldId entityId uniq results =
      some (results.filterMap (fun r =>
        (IcpDatabaseAdapter.get_memory_by_id r.id st).bind (fun m =>
          if IcpDatabaseAdapter.searchKeep tableName roomId worldId entityId uniq m then
            some (m.setField "similarity" (Val.num r.similarity))
          else none))) := by
  induction results with
  | nil => rfl
  | cons r rs ih =>
      cases hm : IcpDatabaseAdapter.get_memory_by_id r.id st with
      | none =>
          simp [IcpDatabaseAdapter.searchLoop, hm, ih, List.filterMap_cons]
      | some m =>
          have hobjm : Val.isObj m := hobj m (mem_docsOf_of_get _ _ _ _ hm)
          cases m with
          | obj fs =>
              cases hk : IcpDatabaseAdapter.searchKeep tableName roomId worldId entityId uniq (Val.obj fs) with
              | true =>
                  simp [IcpDatabaseAdapter.searchLoop, hm, hk, ih,
                    List.filterMap_cons, Val.setField]
              | false =>
                  simp [IcpDatabaseAdapter.searchLoop, hm, hk, ih, List.filterMap_cons]
          | null => exact absurd hobjm (by simp [Val.isObj])
          | bool b => exact absurd hobjm (by simp [Val.isObj])
          | num q => exact absurd hobjm (by simp [Val.isObj])
          | str s => exact absurd hobjm (by simp [Val.isObj])
          | arr xs => exact absurd hobjm (by simp [Val.isObj])

-- ======== Claim theorems =================================================

/-- C3 (amended): `IcpDatabaseAdapter::close` preserves every document of
the durable document store, but clears the whole Vector Index along with
the scratch in-memory cache map. -/
theorem spec_c3 : ∀ st : Store,
    (IcpDatabaseAdapter.close st).data = st.data ∧
    (IcpDatabaseAdapter.close st).vectors = [] ∧
    (IcpDatabaseAdapter.close st).memCache = [] :=
  fun _ => ⟨rfl, rfl, rfl⟩

/-- C3 counterexample: a vector record present before `close` is gone
afterwards, contradicting "every vector record in the Vector Index present
before close() is still present after close() returns". -/
theorem spec_c3_counterexample :
    closeProbeStore.vectors = [("a", [1, 2, 3])] ∧
    (IcpDatabaseAdapter.close closeProbeStore).vectors = [] :=
  ⟨rfl, rfl⟩

/-- C10: `delete_room` never modifies the Vector Index: the vector store
contents after the call equal the contents before it. -/
theorem spec_c10 : ∀ (st : Store) (roomId : String),
    (IcpDatabaseAdapter.delete_room st roomId).vectors = st.vectors :=
  fun _ _ => rfl

/-- C6: `IcpVectorStorage::add` and `IcpVectorStorage::search` with a
vector whose length differs from the configured dimension fail with
`DimensionMismatch{expected: dim, actual: len}`; the error carries no
updated state, so the store is unchanged on the error path. -/
theorem spec_c6 (sqrt : ℚ → ℚ) (st : Store) (id : String) (v : List ℚ)
    (k : Nat) (t : ℚ) (h : v.length ≠ st.dim) :
    IcpVectorStorage.add st.dim st.vectors id v =
      .error (.dimensionMismatch st.dim v.length) ∧
    IcpVectorStorage.search sqrt st.dim st.vectors v k t =
      .error (.dimensionMismatch st.dim v.length) := by
  constructor
  · rw [IcpVectorStorage.add, if_pos h]
  · rw [IcpVectorStorage.search, if_pos h]

/-- C6 witness: the spec's scenario — dimension 3, vector `[0.1, 0.2]`. -/
theorem spec_c6_witness :
    (([0.1, 0.2] : List ℚ).length ≠ stDim3.dim) ∧
    (IcpVectorStorage.add stDim3.dim stDim3.vectors "x" [0.1, 0.2] =
       .error (.dimensionMismatch stDim3.dim ([0.1, 0.2] : List ℚ).length) ∧
     IcpVectorStorage.search (fun x => x) stDim3.dim stDim3.vectors [0.1, 0.2] 5 (1/2) =
       .error (.dimensionMismatch stDim3.dim ([0.1, 0.2] : List ℚ).length)) :=
  ⟨by decide, spec_c6 (fun x => x) stDim3 "x" [0.1, 0.2] 5 (1/2) (by decide)⟩

/-- C2 (amended): a stored cache record whose own top-level `expiresAt` is
integral and in the past is deleted by `get_cache` and reported absent, and
a subsequent `get_cache` still reports absent without changing the store.
(`set_cache` itself never writes `expiresAt` — see the counterexample.) -/
theorem spec_c2 (st : Store) (k : String) (now : ℤ) (c : Val) (e : ℤ)
    (h1 : IcpMemoryStorage.get COLLECTIONS.CACHE k st.data = some c)
    (h2 : (c.get "expiresAt").bind Val.asInt = some e)
    (h3 : e < now) :
    IcpDatabaseAdapter.get_cache st k now =
      ({ st with data := (IcpMemoryStorage.delete COLLECTIONS.CACHE k st.data).1 }, none) ∧
    IcpMemoryStorage.get COLLECTIONS.CACHE k
      ((IcpMemoryStorage.delete COLLECTIONS.CACHE k st.data).1) = none ∧
    IcpDatabaseAdapter.get_cache
      { st with data := (IcpMemoryStorage.delete COLLECTIONS.CACHE k st.data).1 } k now =
      ({ st with data := (IcpMemoryStorage.delete COLLECTIONS.CACHE k st.data).1 }, none) := by
  have hdel := get_delete_self COLLECTIONS.CACHE k st.data
  refine ⟨?_, hdel, ?_⟩
  · simp only [IcpDatabaseAdapter.get_cache, h1, h2]
    rw [if_pos h3]
  · simp only [IcpDatabaseAdapter.get_cache, hdel]

/-- C2 witness: a cache record with `expiresAt = 5`, read at `now = 1000`. -/
theorem spec_c2_witness :
    (IcpMemoryStorage.get COLLECTIONS.CACHE "k" expiredCacheStore.data =
       some (Val.obj [("expiresAt", Val.num 5), ("value", Val.str "x")]) ∧
     ((Val.obj [("expiresAt", Val.num 5), ("value", Val.str "x")]).get "expiresAt").bind Val.asInt =
       some 5 ∧
     (5 : ℤ) < 1000) ∧
    (IcpDatabaseAdapter.get_cache expiredCacheStore "k" 1000 =
      ({ expiredCacheStore with
          data := (IcpMemoryStorage.delete COLLECTIONS.CACHE "k" expiredCacheStore.data).1 }, none) ∧
     IcpMemoryStorage.get COLLECTIONS.CACHE "k"
       ((IcpMemoryStorage.delete COLLECTIONS.CACHE "k" expiredCacheStore.data).1) = none ∧
     IcpDatabaseAdapter.get_cache
       { expiredCacheStore with
          data := (IcpMemoryStorage.delete COLLECTIONS.CACHE "k" expiredCacheStore.data).1 } "k" 1000 =
       ({ expiredCacheStore with
          data := (IcpMemoryStorage.delete COLLECTIONS.CACHE "k" expiredCacheStore.data).1 }, none)) :=
  ⟨⟨rfl, rfl, by decide⟩,
   spec_c2 expiredCacheStore "k" 1000
     (Val.obj [("expiresAt", Val.num 5), ("value", Val.str "x")]) 5 rfl rfl (by decide)⟩

/-- C2 counterexample: `set_cache` wraps the value as `{"value": v}` and
never writes a top-level `expiresAt`, so a value carrying a past
`expiresAt` is still returned by the next `get_cache` — the claimed
expire-on-read after `set_cache` never happens. -/
theorem spec_c2_counterexample :
    pastVal.get "expiresAt" = some (Val.num 5) ∧
    (IcpDatabaseAdapter.get_cache
      ((IcpDatabaseAdapter.set_cache stDim384 "k" pastVal).1) "k" 1000).2 = some pastVal ∧
    (IcpDatabaseAdapter.get_cache
      ((IcpDatabaseAdapter.set_cache stDim384 "k" pastVal).1) "k" 1000).1 =
      (IcpDatabaseAdapter.set_cache stDim384 "k" pastVal).1 :=
  ⟨rfl, rfl, rfl⟩

/-- C9: `update_agent` on a stored agent returns `true` and performs a
shallow merge: the stored document afterwards takes each top-level field
named in the patch from the patch and every other field from the previous
document; on a missing agent it returns `false` and leaves the store
unchanged. -/
theorem spec_c9 (st : Store) (aid : String) (patch : Val)
    (ef pf : List (String × Val))
    (h1 : IcpDatabaseAdapter.get_agent aid st = some (Val.obj ef))
    (h2 : patch = Val.obj pf)
    (h3 : (pf.map Prod.fst).Nodup) :
    (IcpDatabaseAdapter.update_agent st aid patch).2 = true ∧
    IcpMemoryStorage.get COLLECTIONS.AGENTS aid
      (IcpDatabaseAdapter.update_agent st aid patch).1.data =
      some (Val.obj (pf.foldl (fun acc kv => upsert acc kv.1 kv.2) ef)) ∧
    (∀ k, (pf.foldl (fun acc kv => upsert acc kv.1 kv.2) ef).lookup k =
      (pf.lookup k).or (ef.lookup k)) ∧
    (∀ j, IcpDatabaseAdapter.get_agent j st = none →
      IcpDatabaseAdapter.update_agent st j patch = (st, false)) := by
  subst h2
  refine ⟨?_, ?_, fun k => foldl_upsert_lookup pf ef k h3, fun j hj => ?_⟩
  · simp [IcpDatabaseAdapter.update_agent, h1]
  · simp only [IcpDatabaseAdapter.update_agent, h1]
    exact lookup_upsert_self st.data (COLLECTIONS.AGENTS, aid) _
  · simp [IcpDatabaseAdapter.update_agent, hj]

/-- C9 witness: patching `{name}` on an agent with fields
`{id, name, bio}`. -/
theorem spec_c9_witness :
    (IcpDatabaseAdapter.get_agent "a1" agentStore =
       some (Val.obj [("id", Val.str "a1"), ("name", Val.str "Eliza"), ("bio", Val.str "b")]) ∧
     ([("name", Val.str "Neo")].map (Prod.fst (β := Val))).Nodup) ∧
    ((IcpDatabaseAdapter.update_agent agentStore "a1" (Val.obj [("name", Val.str "Neo")])).2 = true ∧
     IcpMemoryStorage.get COLLECTIONS.AGENTS "a1"
       (IcpDatabaseAdapter.update_agent agentStore "a1" (Val.obj [("name", Val.str "Neo")])).1.data =
       some (Val.obj ([("name", Val.str "Neo")].foldl (fun acc kv => upsert acc kv.1 kv.2)
         [("id", Val.str "a1"), ("name", Val.str "Eliza"), ("bio", Val.str "b")])) ∧
     (∀ k, (([("name", Val.str "Neo")]).foldl (fun acc kv => upsert acc kv.1 kv.2)
         [("id", Val.str "a1"), ("name", Val.str "Eliza"), ("bio", Val.str "b")]).lookup k =
       (([("name", Val.str "Neo")]).lookup k).or
         (([("id", Val.str "a1"), ("name", Val.str "Eliza"), ("bio", Val.str "b")]).lookup k)) ∧
     (∀ j, IcpDatabaseAdapter.get_agent j agentStore = none →
       IcpDatabaseAdapter.update_agent agentStore j (Val.obj [("name", Val.str "Neo")]) =
         (agentStore, false))) :=
  ⟨⟨rfl, by decide⟩,
   spec_c9 agentStore "a1" (Val.obj [("name", Val.str "Neo")])
     [("id", Val.str "a1"), ("name", Val.str "Eliza"), ("bio", Val.str "b")]
     [("name", Val.str "Neo")] rfl rfl (by decide)⟩

/-- C8: after `delete_room r` the room document is gone, no remaining
participant document references `r`, no remaining memory document
references `r`, and `get_memories` filtered on `roomId = r` returns
empty whatever the other filters are. -/
theorem spec_c8 (st : Store) (roomId : String) :
    IcpMemoryStorage.get COLLECTIONS.ROOMS roomId
      (IcpDatabaseAdapter.delete_room st roomId).data = none ∧
    (∀ p ∈ IcpMemoryStorage.docsOf COLLECTIONS.PARTICIPANTS
        (IcpDatabaseAdapter.delete_room st roomId).data,
      IcpDatabaseAdapter.roomRefs roomId p = false) ∧
    (∀ m ∈ IcpMemoryStorage.docsOf COLLECTIONS.MEMORIES
        (IcpDatabaseAdapter.delete_room st roomId).data,
      IcpDatabaseAdapter.roomRefs roomId m = false) ∧
    (∀ eid aid wid tn cnt off uq,
      IcpDatabaseAdapter.get_memories (IcpDatabaseAdapter.delete_room st roomId)
        eid aid (some roomId) wid tn cnt off uq = []) := by
  have hmem : ∀ m ∈ IcpMemoryStorage.docsOf COLLECTIONS.MEMORIES
      (IcpDatabaseAdapter.delete_room st roomId).data,
      IcpDatabaseAdapter.roomRefs roomId m = false := by
    intro m hm
    rw [IcpDatabaseAdapter.delete_room] at hm
    rw [docsOf_delete_where_self] at hm
    have := (List.mem_filter.mp hm).2
    simpa using this
  refine ⟨?_, ?_, hmem, ?_⟩
  · rw [IcpDatabaseAdapter.delete_room]
    exact lookup_filter_of_none _ _ _
      (lookup_filter_of_none _ _ _ (get_delete_self COLLECTIONS.ROOMS roomId st.data))
  · intro p hp
    rw [IcpDatabaseAdapter.delete_room] at hp
    rw [docsOf_delete_where_ne COLLECTIONS.PARTICIPANTS COLLECTIONS.MEMORIES
      (by decide) _ _] at hp
    rw [docsOf_delete_where_self] at hp
    have := (List.mem_filter.mp hp).2
    simpa using this
  · intro eid aid wid tn cnt off uq
    rw [IcpDatabaseAdapter.get_memories]
    have hnil : IcpMemoryStorage.get_where COLLECTIONS.MEMORIES
        (IcpDatabaseAdapter.memFilter eid aid (some roomId) wid tn)
        (IcpDatabaseAdapter.delete_room st roomId).data = [] := by
      rw [IcpMemoryStorage.get_where]
      rw [List.filter_eq_nil_iff]
      intro m hm
      have hfalse := hmem m hm
      rw [IcpDatabaseAdapter.roomRefs] at hfalse
      simp [IcpDatabaseAdapter.memFilter, hfalse]
    rw [hnil]
    exact slice_nil cnt off

/-- C8 witness: deleting room `r1` from a store with a room document, a
participant in `r1`, and a memory in `r1`. -/
theorem spec_c8_witness :
    IcpMemoryStorage.get COLLECTIONS.ROOMS "r1"
      (IcpDatabaseAdapter.delete_room roomStore "r1").data = none ∧
    (∀ p ∈ IcpMemoryStorage.docsOf COLLECTIONS.PARTICIPANTS
        (IcpDatabaseAdapter.delete_room roomStore "r1").data,
      IcpDatabaseAdapter.roomRefs "r1" p = false) ∧
    (∀ m ∈ IcpMemoryStorage.docsOf COLLECTIONS.MEMORIES
        (IcpDatabaseAdapter.delete_room roomStore "r1").data,
      IcpDatabaseAdapter.roomRefs "r1" m = false) ∧
    (∀ eid aid wid tn cnt off uq,
      IcpDatabaseAdapter.get_memories (IcpDatabaseAdapter.delete_room roomStore "r1")
        eid aid (some "r1") wid tn cnt off uq = []) :=
  spec_c8 roomStore "r1"

/-- C5: `get_memories` returns exactly the `memories` documents passing
the supplied equality filters and `metadata.type == tableName` (stated for
stores whose memory documents all carry `metadata`, as every document
written by `create_memory` does), sorted by `createdAt` descending with
offset applied before the count limit; and the result is sorted by
`createdAt` descending. -/
theorem spec_c5 (st : Store) (eid aid rid wid : Option String) (tn : String)
    (cnt off : Option Nat) (uq : Option Bool)
    (hmd : ∀ m ∈ IcpMemoryStorage.docsOf COLLECTIONS.MEMORIES st.data,
      (m.get "metadata").isSome) :
    IcpDatabaseAdapter.get_memories st eid aid rid wid tn cnt off uq =
      IcpDatabaseAdapter.sliceMemories cnt off (List.insertionSort memGe
        ((IcpMemoryStorage.docsOf COLLECTIONS.MEMORIES st.data).filter
          (claimMemFilter eid aid rid wid tn))) ∧
    List.Sorted memGe (IcpDatabaseAdapter.get_memories st eid aid rid wid tn cnt off uq) := by
  have hfe : (IcpMemoryStorage.docsOf COLLECTIONS.MEMORIES st.data).filter
      (IcpDatabaseAdapter.memFilter eid aid rid wid tn) =
      (IcpMemoryStorage.docsOf COLLECTIONS.MEMORIES st.data).filter
        (claimMemFilter eid aid rid wid tn) := by
    apply List.filter_congr
    intro m hm
    obtain ⟨md, hmd2⟩ := Option.isSome_iff_exists.mp (hmd m hm)
    simp [IcpDatabaseAdapter.memFilter, claimMemFilter, hmd2]
  constructor
  · rw [IcpDatabaseAdapter.get_memories, IcpMemoryStorage.get_where, hfe]
  · rw [IcpDatabaseAdapter.get_memories]
    exact sorted_slice _ _ _ (List.sorted_insertionSort memGe _)

/-- C5 witness: the spec's ordering scenario — three memories in one room
with `createdAt` 100, 300, 200; `roomId` filter with `count 2` returns the
`createdAt` 300 document then the 200 one. -/
theorem spec_c5_witness :
    (∀ m ∈ IcpMemoryStorage.docsOf COLLECTIONS.MEMORIES orderStore.data,
      (m.get "metadata").isSome) ∧
    IcpDatabaseAdapter.get_memories orderStore none none (some "r1") none
      "messages" (some 2) none none = [memB, memC] :=
  ⟨by decide,
   ((spec_c5 orderStore none none (some "r1") none "messages" (some 2) none none
      (by decide)).1).trans (by with_unfolding_all rfl)⟩

/-- C4 (amended): `search_memories` queries the Vector Index for `2*count`
candidates above the threshold, fetches each candidate by id, discards any
whose `metadata.type` (when `metadata` is present), `roomId`, `worldId`,
or `entityId` fails a supplied filter and — only when `unique = true` is
supplied — any whose `unique` field is not `true`, attaches the similarity
score onto each kept document, and returns at most `count` results (stated
for stores whose memory documents are all objects, as `create_memory`
guarantees). -/
theorem spec_c4 (sqrt : ℚ → ℚ) (st : Store) (tn : String) (emb : List ℚ)
    (mt : Option ℚ) (cnt : Option Nat) (rid wid eid : Option String)
    (uniq : Option Bool)
    (hobj : ∀ m ∈ IcpMemoryStorage.docsOf COLLECTIONS.MEMORIES st.data, Val.isObj m) :
    IcpDatabaseAdapter.search_memories sqrt st tn emb mt cnt rid wid eid uniq =
      some (searchPipeline sqrt st emb (cnt.getD 10) (mt.getD (1/2))
        (IcpDatabaseAdapter.searchKeep tn rid wid eid uniq)) := by
  rw [IcpDatabaseAdapter.search_memories, searchPipeline]
  cases hs : IcpVectorStorage.search sqrt st.dim st.vectors emb ((cnt.getD 10) * 2)
      (mt.getD (1/2)) with
  | error e => simp [hs, Except.map]
  | ok results =>
      simp [hs, Except.map, searchLoop_eq st tn rid wid eid uniq results hobj]

/-- C4 witness: a dimension-1 store with one memory and one vector; the
query `[1]` scores similarity `1` against the stored vector. -/
theorem spec_c4_witness :
    (∀ m ∈ IcpMemoryStorage.docsOf COLLECTIONS.MEMORIES searchStore.data, Val.isObj m) ∧
    IcpDatabaseAdapter.search_memories (fun x => x) searchStore "messages" [1]
      (some (1/2)) (some 5) none none none none =
      some (searchPipeline (fun x => x) searchStore [1] 5 (1/2)
        (IcpDatabaseAdapter.searchKeep "messages" none none none none)) :=
  ⟨by decide,
   spec_c4 (fun x => x) searchStore "messages" [1] (some (1/2)) (some 5)
     none none none none (by decide)⟩

/-- C4 counterexample: with `unique = Some(false)` supplied, a memory whose
`unique` flag is `true` is still returned (the code filters only on
`unique = Some(true)`), while the claimed filter — which discards on any
supplied `unique`, including `false` — would return nothing. -/
theorem spec_c4_counterexample :
    IcpDatabaseAdapter.search_memories (fun x => x) searchStore "messages" [1]
      (some (1/2)) (some 5) none none none (some false) =
      some (.ok [searchMemSim]) ∧
    searchMemSim.get "unique" = some (Val.bool true) ∧
    searchPipeline (fun x => x) searchStore [1] 5 (1/2)
      (claimSearchKeep "messages" none none none (some false)) = .ok [] :=
  ⟨by with_unfolding_all rfl, rfl, by with_unfolding_all rfl⟩

/-- C1 (amended): if the document carries a top-level `embedding` array
whose numeric elements form a non-empty vector, then whenever
`create_memory` returns the assigned id, the Vector Index afterwards maps
that id to that numeric vector. -/
theorem spec_c1 (agentId : String) (now : ℤ) (fresh : String) (memory : Val)
    (tn : String) (uniq : Bool) (st st2 : Store) (mid : String)
    (xs : List Val) (es : List ℚ)
    (hemb : memory.get "embedding" = some (Val.arr xs))
    (hes : xs.filterMap Val.asNum = es)
    (hne : es ≠ [])
    (hok : IcpDatabaseAdapter.create_memory agentId now fresh memory tn uniq st =
      some (st2, .ok mid)) :
    st2.vectors.lookup mid = some es := by
  have hie : es.isEmpty = false := by
    cases es with
    | nil => exact absurd rfl hne
    | cons a l => rfl
  cases memory with
  | obj mf =>
      rw [IcpDatabaseAdapter.create_memory] at hok
      simp only [hemb, Option.some_bind, Val.asArr, hes, hie, Bool.false_eq_true,
        if_false] at hok
      split at hok
      · rw [IcpVectorStorage.add] at hok
        by_cases hd : es.length ≠ st.dim
        · rw [if_pos hd] at hok
          simp at hok
        · rw [if_neg hd] at hok
          simp only [Option.some.injEq, Prod.mk.injEq, Except.ok.injEq] at hok
          obtain ⟨hst, hid⟩ := hok
          subst hid
          rw [← hst]
          exact lookup_upsert_self st.vectors _ es
      · simp at hok
  | null => simp [IcpDatabaseAdapter.create_memory] at hok
  | bool b => simp [IcpDatabaseAdapter.create_memory] at hok
  | num q => simp [IcpDatabaseAdapter.create_memory] at hok
  | str s => simp [IcpDatabaseAdapter.create_memory] at hok
  | arr ys => simp [IcpDatabaseAdapter.create_memory] at hok

/-- C1 witness: `create_memory` on a document with a top-level
`embedding = [0.1, 0.2, 0.3]` in a dimension-3 store. -/
theorem spec_c1_witness :
    (topEmbDoc.get "embedding" =
       some (Val.arr [Val.num 0.1, Val.num 0.2, Val.num 0.3]) ∧
     [Val.num 0.1, Val.num 0.2, Val.num 0.3].filterMap Val.asNum =
       [(0.1 : ℚ), 0.2, 0.3] ∧
     ([(0.1 : ℚ), 0.2, 0.3] ≠ []) ∧
     IcpDatabaseAdapter.create_memory "agent" 1000 "u1" topEmbDoc "messages" false stDim3 =
       some (topEmbStoreAfter, .ok "m1")) ∧
    topEmbStoreAfter.vectors.lookup "m1" = some [0.1, 0.2, 0.3] :=
  ⟨⟨rfl, rfl, List.cons_ne_nil _ _, rfl⟩,
   spec_c1 "agent" 1000 "u1" topEmbDoc "messages" false stDim3 topEmbStoreAfter
     "m1" [Val.num 0.1, Val.num 0.2, Val.num 0.3] [(0.1 : ℚ), 0.2, 0.3]
     rfl rfl (List.cons_ne_nil _ _) rfl⟩

/-- C1 counterexample: a document whose non-empty embedding sits under
`content.embedding` (and has no top-level `embedding`): `create_memory`
returns the assigned id, yet the Vector Index is left empty — the code
reads only the top-level `embedding` field. -/
theorem spec_c1_counterexample :
    (contentEmbDoc.get "content").bind (fun c => c.get "embedding") =
      some (Val.arr [Val.num 0.1, Val.num 0.2, Val.num 0.3]) ∧
    (IcpDatabaseAdapter.create_memory "agent" 1000 "u1" contentEmbDoc "messages" false stDim3).map
      (fun p => p.2) = some (.ok "m1") ∧
    (IcpDatabaseAdapter.create_memory "agent" 1000 "u1" contentEmbDoc "messages" false stDim3).map
      (fun p => p.1.vectors) = some [] :=
  ⟨rfl, rfl, rfl⟩

/-- C7: `search` computes cosine similarity against the stored vectors;
every returned entry scores at least the threshold, carries
`distance = 1 - similarity`, and is the cosine similarity of the query
with a stored vector; the results are sorted by descending similarity and
number at most `k`; and the cosine score is `0` whenever either vector has
zero magnitude (zero sum of squares), provided `sqrt 0 = 0`. -/
theorem spec_c7 (sqrt : ℚ → ℚ) (st : Store) (q : List ℚ) (k : Nat) (t : ℚ)
    (hsq : sqrt 0 = 0) (hq : q.length = st.dim) :
    ∃ rs, IcpVectorStorage.search sqrt st.dim st.vectors q k t = .ok rs ∧
      rs.length ≤ k ∧
      List.Sorted vsrGe rs ∧
      (∀ r ∈ rs, t ≤ r.similarity ∧ r.distance = 1 - r.similarity ∧
        ∃ v, (r.id, v) ∈ st.vectors ∧
          r.similarity = cosine_similarity sqrt q v) ∧
      (∀ v : List ℚ,
        ((v.map (fun x => x * x)).sum = 0 ∨ (q.map (fun x => x * x)).sum = 0) →
        cosine_similarity sqrt q v = 0) := by
  rw [IcpVectorStorage.search, if_neg (fun h => h hq)]
  refine ⟨_, rfl, ?_, ?_, ?_, ?_⟩
  · rw [List.length_take]
    exact min_le_left _ _
  · exact List.Pairwise.sublist (List.take_sublist _ _)
      (List.sorted_insertionSort vsrGe _)
  · intro r hr
    have hr2 := List.take_subset _ _ hr
    have hr3 : r ∈ st.vectors.filterMap (fun kv =>
        let similarity := cosine_similarity sqrt q kv.2
        if t ≤ similarity then some ⟨kv.1, 1 - similarity, similarity⟩ else none) :=
      (List.perm_insertionSort vsrGe _).subset hr2
    obtain ⟨kv, hkv, hf⟩ := List.mem_filterMap.mp hr3
    by_cases ht : t ≤ cosine_similarity sqrt q kv.2
    · simp only [if_pos ht] at hf
      obtain rfl := (Option.some.inj hf).symm
      exact ⟨ht, rfl, kv.2, by simpa using hkv, rfl⟩
    · simp only [if_neg ht] at hf
      exact Option.noConfusion hf
  · intro v hv
    rw [cosine_similarity]
    by_cases hl : q.length ≠ v.length
    · rw [if_pos hl]
    · rw [if_neg hl]
      rcases hv with hv | hv
      · simp only [hv, hsq, mul_zero, if_pos]
      · simp only [hv, hsq, zero_mul, if_pos]

/-- C7 witness: a dimension-1 store with vector `[1]` queried with `[1]`. -/
theorem spec_c7_witness :
    ((fun x : ℚ => x) 0 = 0 ∧ ([(1 : ℚ)] : List ℚ).length = searchStore.dim) ∧
    (∃ rs, IcpVectorStorage.search (fun x => x) searchStore.dim
        searchStore.vectors [1] 5 (1/2) = .ok rs ∧
      rs.length ≤ 5 ∧
      List.Sorted vsrGe rs ∧
      (∀ r ∈ rs, (1/2 : ℚ) ≤ r.similarity ∧ r.distance = 1 - r.similarity ∧
        ∃ v, (r.id, v) ∈ searchStore.vectors ∧
          r.similarity = cosine_similarity (fun x => x) [1] v) ∧
      (∀ v : List ℚ,
        ((v.map (fun x => x * x)).sum = 0 ∨ (([(1 : ℚ)].map (fun x => x * x)).sum = 0)) →
        cosine_similarity (fun x => x) [1] v = 0)) :=
  ⟨⟨rfl, rfl⟩, spec_c7 (fun x => x) searchStore [1] 5 (1/2) rfl rfl⟩
